import Mathlib

/-!
Verification of the labelcrop selection-engine geometry (src/labelcrop/lbl.py).

The interactive selection engine is embedded shallowly over the rationals:
Python floats become `ℚ` (the arithmetic of the engine is plain field
arithmetic, so every identity proved here holds exactly, and in particular
within any floating-point tolerance the specification allows).  Each Lean
definition is translated from the correspondingly named function of
`PDFLabelSelector` in src/labelcrop/lbl.py; sequential Python assignments are
rendered as chained `let` bindings.
-/

namespace LabelCrop

/-- A rectangle `(x1, y1, x2, y2)` in canvas space (`self.rect` in the source,
a 4-tuple of floats). -/
structure Rect where
  x1 : ℚ
  y1 : ℚ
  x2 : ℚ
  y2 : ℚ
deriving DecidableEq

/-- A rectangle in document space (PDF points), as emitted by `save_and_close`:
`(pdf_x1, pdf_y1, pdf_x2, pdf_y2)` with `(x1, y1)` the bottom-left and
`(x2, y2)` the top-right corner. -/
structure DocRect where
  x1 : ℚ
  y1 : ℚ
  x2 : ℚ
  y2 : ℚ
deriving DecidableEq

/-- The edge set of an active resize gesture (the dict built by
`get_resize_edges`). -/
structure Edges where
  left : Bool
  right : Bool
  top : Bool
  bottom : Bool
deriving DecidableEq

/-- The geometry-relevant state of a `PDFLabelSelector` instance: the fields
set in `__init__` and `render_page` that the rectangle engine reads.  GUI
handles (canvas ids, tk variables, cursors) are omitted; they do not enter any
geometric computation. -/
structure Selector where
  page_height : ℚ
  scale : ℚ
  rect : Option Rect
  resize_edges : Option Edges
  aspect_ratio : Option ℚ
  forced_dimensions : Option (ℚ × ℚ)
  canvas_width : ℚ
  canvas_height : ℚ
  image_x0 : ℚ
  image_y0 : ℚ
  image_width : ℚ
  image_height : ℚ

/-- `POINTS_PER_INCH = 72.0` (module constant of lbl.py). -/
def POINTS_PER_INCH : ℚ := 72

/-- `POINTS_PER_CM = POINTS_PER_INCH / 2.54` (module constant of lbl.py). -/
def POINTS_PER_CM : ℚ := POINTS_PER_INCH / (254 / 100)

/-- `self.min_size = 10` (set in `PDFLabelSelector.__init__`). -/
def min_size : ℚ := 10

/-- `self.handle_size = 6` (set in `PDFLabelSelector.__init__`). -/
def handle_size : ℚ := 6

/-- Python's `str.strip()`: drop whitespace from both ends of the character
list. -/
def pyStripCore (l : List Char) : List Char :=
  ((l.dropWhile Char.isWhitespace).reverse.dropWhile Char.isWhitespace).reverse

/-- Python's `text.strip()` on a string. -/
def pyStrip (s : String) : String := ⟨pyStripCore s.data⟩

/-- Python's `text.lower()` on a string. -/
def pyLower (s : String) : String := ⟨s.data.map Char.toLower⟩

/-- Python's `value.split(sep, 1)` for a one-character separator known to
occur in the list: the part before its first occurrence and the remainder
after it. -/
def splitFirstCore (c : Char) : List Char → List Char × List Char
  | [] => ([], [])
  | a :: rest =>
      if a = c then ([], rest)
      else
        let pq := splitFirstCore c rest
        (a :: pq.1, pq.2)

/-- `parse_aspect_ratio(text)` of lbl.py, parameterised by the float parser
`pf` standing for Python's built-in `float`: for each separator "x", ":", "/"
in order, if the separator occurs in the (stripped, lowercased) text, split
once at it, parse both parts and return `w / h` when both are strictly
positive (`None` otherwise); with no separator, parse the whole text and
return it when strictly positive. -/
def parse_aspect_ratio (pf : String → Option ℚ) (text : String) : Option ℚ :=
  if text = "" then none
  else
    let value := pyLower (pyStrip text)
    if value = "" then none
    else
      match List.find? (fun sep => decide (sep ∈ value.data)) ['x', ':', '/'] with
      | some sep =>
          let parts := splitFirstCore sep value.data
          match pf ⟨parts.1⟩, pf ⟨parts.2⟩ with
          | some w, some h => if 0 < w ∧ 0 < h then some (w / h) else none
          | _, _ => none
      | none =>
          match pf value with
          | some ratio => if 0 < ratio then some ratio else none
          | none => none

/-- The numeric value of a list of decimal digit characters. -/
def digitsVal (l : List Char) : ℕ :=
  l.foldl (fun acc c => 10 * acc + (c.toNat - 48)) 0

/-- Modelled from the spec: Python's built-in `float(text)` (the library call
used by `parse_float` and `parse_aspect_ratio`, not itself part of the
repository) restricted to plain decimal literals — optional sign, then digits
with an optional single fractional point.  Other spellings are treated as
unparseable.  Used only to evaluate the parser on concrete example strings. -/
def pyFloat (s : String) : Option ℚ :=
  let t := pyStripCore s.data
  let neg : Bool := t.head? = some '-'
  let mag := if t.head? = some '-' ∨ t.head? = some '+' then t.tail else t
  if '.' ∈ mag then
    let ip := (splitFirstCore '.' mag).1
    let fp := (splitFirstCore '.' mag).2
    if ('.' ∉ fp) ∧ (ip ≠ [] ∨ fp ≠ []) ∧ ip.all Char.isDigit ∧ fp.all Char.isDigit then
      let v : ℚ := (digitsVal ip : ℚ) + (digitsVal fp : ℚ) / 10 ^ fp.length
      some (if neg then -v else v)
    else none
  else
    if mag ≠ [] ∧ mag.all Char.isDigit then
      some (if neg then -(digitsVal mag : ℚ) else (digitsVal mag : ℚ))
    else none

/-- `unit_to_points(value, unit)` of lbl.py.  `value` is the result of
`parse_float` (hence an `Option`); a `None` value or an unknown unit yields
`None`. -/
def unit_to_points (value : Option ℚ) (unit : String) : Option ℚ :=
  match value with
  | none => none
  | some v =>
      let unit_norm := pyLower (pyStrip unit)
      if unit_norm ∈ ["in", "inch", "inches"] then some (v * POINTS_PER_INCH)
      else if unit_norm ∈ ["cm", "centimeter", "centimeters"] then some (v * POINTS_PER_CM)
      else if unit_norm ∈ ["pt", "pts", "point", "points"] then some v
      else if unit_norm ∈ ["px", "pixel", "pixels"] then some v
      else none

/-- `clamp_rect(x1, y1, x2, y2, keep_size)` of lbl.py: with `keep_size` the
rectangle is translated to lie inside the rendered page image (pinning at
`right_bound - w` when wider than the image); without it each coordinate is
clipped into the image bounds independently. -/
def clamp_rect (s : Selector) (x1 y1 x2 y2 : ℚ) (keep_size : Bool) : Rect :=
  let left_bound := s.image_x0
  let right_bound := s.image_x0 + s.image_width
  let top_bound := s.image_y0
  let bottom_bound := s.image_y0 + s.image_height
  if keep_size then
    let w := x2 - x1
    let h := y2 - y1
    let nx1 := min (max x1 left_bound) (right_bound - w)
    let ny1 := min (max y1 top_bound) (bottom_bound - h)
    ⟨nx1, ny1, nx1 + w, ny1 + h⟩
  else
    ⟨max left_bound (min x1 right_bound),
     max top_bound (min y1 bottom_bound),
     max left_bound (min x2 right_bound),
     max top_bound (min y2 bottom_bound)⟩

/-- The body of `apply_aspect_ratio_to_rect` (lbl.py lines 326-346) acting on
an explicit rectangle and ratio: recompute width/height about the centre so
that `width / height = ratio` (a degenerate height of 0 is first replaced by
1), then clamp with `keep_size=True`. -/
def aspect_project (s : Selector) (r : Rect) (ratio : ℚ) : Rect :=
  let center_x := (r.x1 + r.x2) / 2
  let center_y := (r.y1 + r.y2) / 2
  let width := |r.x2 - r.x1|
  let height := |r.y2 - r.y1|
  let height := if height = 0 then 1 else height
  let width' := if width / height > ratio then height * ratio else width
  let height' := if width / height > ratio then height else width / ratio
  clamp_rect s (center_x - width' / 2) (center_y - height' / 2)
    (center_x + width' / 2) (center_y + height' / 2) true

/-- `apply_aspect_ratio_to_rect(self)` of lbl.py: a `None` rectangle or a
falsy (`None` or `0.0`) aspect ratio leaves the state unchanged. -/
def apply_aspect_ratio_to_rect (s : Selector) : Selector :=
  match s.rect, s.aspect_ratio with
  | some r, some ratio =>
      if ratio = 0 then s
      else { s with rect := some (aspect_project s r ratio) }
  | _, _ => s

/-- The body of `apply_forced_dimensions_to_rect` (lbl.py lines 348-364)
acting on an explicit rectangle and target dimensions in points: scale the
target to canvas units, cap it at the canvas (not the image) size, recentre,
then clamp with `keep_size=True`. -/
def forced_project (s : Selector) (r : Rect) (width_pts height_pts : ℚ) : Rect :=
  let width := width_pts * s.scale
  let height := height_pts * s.scale
  let width := min width s.canvas_width
  let height := min height s.canvas_height
  let center_x := (r.x1 + r.x2) / 2
  let center_y := (r.y1 + r.y2) / 2
  clamp_rect s (center_x - width / 2) (center_y - height / 2)
    (center_x + width / 2) (center_y + height / 2) true

/-- `apply_forced_dimensions_to_rect(self)` of lbl.py: a `None` rectangle or
`None` forced dimensions leave the state unchanged (a stored pair is always
truthy in Python, so no further check happens here). -/
def apply_forced_dimensions_to_rect (s : Selector) : Selector :=
  match s.rect, s.forced_dimensions with
  | some r, some (w, h) => { s with rect := some (forced_project s r w h) }
  | _, _ => s

/-- The "Force Dimensions" branch of `apply_constraints` (lbl.py lines
313-324).  `w_val`/`h_val` are the results of `parse_float` on the entry
texts.  Python's `if not width or not height` is falsy exactly on `None` and
`0.0`, so those are rejected (constraint cleared, rectangle untouched); any
other parsed value — including a negative one — is stored and applied. -/
def apply_constraints_force_dimensions (s : Selector)
    (w_val h_val : Option ℚ) (w_unit h_unit : String) : Selector :=
  let width := unit_to_points w_val w_unit
  let height := unit_to_points h_val h_unit
  match width, height with
  | some w, some h =>
      if w = 0 ∨ h = 0 then
        { s with aspect_ratio := none, forced_dimensions := none }
      else
        apply_forced_dimensions_to_rect
          { s with aspect_ratio := none, forced_dimensions := some (w, h) }
  | _, _ => { s with aspect_ratio := none, forced_dimensions := none }

/-- The `drag_mode == "move"` branch of `on_mouse_drag` (lbl.py lines
459-467): translate the rectangle by the pointer delta, then clamp with
`keep_size=True`. -/
def move_step (s : Selector) (r : Rect) (dx dy : ℚ) : Rect :=
  clamp_rect s (r.x1 + dx) (r.y1 + dy) (r.x2 + dx) (r.y2 + dy) true

/-- `resize_rect(x1, y1, x2, y2, cursor_x, cursor_y)` of lbl.py (lines
534-607).  Sequential reassignments of `x1, y1, x2, y2` are rendered as the
chained bindings `x1a, x2a, ...` in the same order the source performs them
(later bindings read the already-updated values, as Python does). -/
def resize_rect (s : Selector) (x1 y1 x2 y2 cursor_x cursor_y : ℚ) : Rect :=
  let edges := s.resize_edges.getD ⟨false, false, false, false⟩
  match s.forced_dimensions with
  | some (width_pts, height_pts) =>
      let width := min (width_pts * s.scale) s.canvas_width
      let height := min (height_pts * s.scale) s.canvas_height
      let x1a := if edges.left then cursor_x else x1
      let x2a := if edges.left then cursor_x + width else x2
      let x2b := if edges.right then cursor_x else x2a
      let x1b := if edges.right then cursor_x - width else x1a
      let y1a := if edges.top then cursor_y else y1
      let y2a := if edges.top then cursor_y + height else y2
      let y2b := if edges.bottom then cursor_y else y2a
      let y1b := if edges.bottom then cursor_y - height else y1a
      clamp_rect s x1b y1b x2b y2b true
  | none =>
      let x1a := if edges.left then min cursor_x (x2 - min_size) else x1
      let x2a := if edges.right then max cursor_x (x1a + min_size) else x2
      let y1a := if edges.top then min cursor_y (y2 - min_size) else y1
      let y2a := if edges.bottom then max cursor_y (y1a + min_size) else y2
      match s.aspect_ratio with
      | some ratio =>
          if ratio = 0 then clamp_rect s x1a y1a x2a y2a false
          else
            let corner_drag := (edges.left || edges.right) && (edges.top || edges.bottom)
            if corner_drag then
              let anchor_x := if edges.left then x2a else x1a
              let anchor_y := if edges.top then y2a else y1a
              let dx := cursor_x - anchor_x
              let dy := cursor_y - anchor_y
              let width := max min_size |dx|
              let height := max min_size |dy|
              let width' := if width / height > ratio then width else height * ratio
              let height' := if width / height > ratio then width / ratio else height
              let x1c := if edges.left then anchor_x - width' else anchor_x
              let x2c := if edges.left then anchor_x else anchor_x + width'
              let y1c := if edges.top then anchor_y - height' else anchor_y
              let y2c := if edges.top then anchor_y else anchor_y + height'
              clamp_rect s x1c y1c x2c y2c false
            else
              let y1b := if edges.left || edges.right then
                  (y1a + y2a) / 2 - (max min_size |x2a - x1a| / ratio) / 2
                else y1a
              let y2b := if edges.left || edges.right then
                  (y1a + y2a) / 2 + (max min_size |x2a - x1a| / ratio) / 2
                else y2a
              let x1b := if edges.top || edges.bottom then
                  (x1a + x2a) / 2 - (max min_size |y2b - y1b| * ratio) / 2
                else x1a
              let x2b := if edges.top || edges.bottom then
                  (x1a + x2a) / 2 + (max min_size |y2b - y1b| * ratio) / 2
                else x2a
              clamp_rect s x1b y1b x2b y2b false
      | none => clamp_rect s x1a y1a x2a y2a false

/-- `create_default_rect(self)` of lbl.py: a 4in×6in rectangle at the current
scale, fit-shrunk to the rendered page image and centred in it. -/
def create_default_rect (s : Selector) : Rect :=
  let default_w := 4 * POINTS_PER_INCH * s.scale
  let default_h := 6 * POINTS_PER_INCH * s.scale
  let fit_ratio :=
    if 0 < default_w ∧ 0 < default_h then
      min (min (s.image_width / default_w) (s.image_height / default_h)) 1
    else 1
  let default_w := default_w * fit_ratio
  let default_h := default_h * fit_ratio
  let center_x := s.image_x0 + s.image_width / 2
  let center_y := s.image_y0 + s.image_height / 2
  ⟨center_x - default_w / 2, center_y - default_h / 2,
   center_x + default_w / 2, center_y + default_h / 2⟩

/-- The rectangle re-projection of `on_resize_commit` (lbl.py lines 230-250):
map the rectangle out of the previous page image (previous scale and origin),
into the new one (the `Selector`'s current fields), then clamp with
`keep_size=True`.  A falsy (zero) previous scale is replaced by `1.0`. -/
def on_resize_commit_reproject (s : Selector)
    (previous_scale prev_image_x0 prev_image_y0 : ℚ) (r : Rect) : Rect :=
  let ps := if previous_scale = 0 then 1 else previous_scale
  let x1p := (r.x1 - prev_image_x0) / ps
  let x2p := (r.x2 - prev_image_x0) / ps
  let y1p := (r.y1 - prev_image_y0) / ps
  let y2p := (r.y2 - prev_image_y0) / ps
  clamp_rect s (s.image_x0 + x1p * s.scale) (s.image_y0 + y1p * s.scale)
    (s.image_x0 + x2p * s.scale) (s.image_y0 + y2p * s.scale) true

/-- The canvas-to-document conversion of `save_and_close` (lbl.py lines
609-620): `pdf_x = (canvas_x - image_x0) / scale`, and the document Y axis is
inverted, with `pdf_y1` computed from the larger canvas `y2` (bottom) and
`pdf_y2` from the smaller canvas `y1` (top). -/
def toDocumentSpace (s : Selector) (r : Rect) : DocRect :=
  ⟨(r.x1 - s.image_x0) / s.scale,
   s.page_height - (r.y2 - s.image_y0) / s.scale,
   (r.x2 - s.image_x0) / s.scale,
   s.page_height - (r.y1 - s.image_y0) / s.scale⟩

/-- Modelled from the spec: the inverse canvas projection
`canvas_x = image_x0 + pdf_x * scale` (the re-projection direction used by
`on_resize_commit`), with the document Y axis inverted back exactly as
`save_and_close` inverted it.  The source never names this function; the
round-trip claim defines it by this formula. -/
def toCanvasSpace (s : Selector) (d : DocRect) : Rect :=
  ⟨s.image_x0 + d.x1 * s.scale,
   s.image_y0 + (s.page_height - d.y2) * s.scale,
   s.image_x0 + d.x2 * s.scale,
   s.image_y0 + (s.page_height - d.y1) * s.scale⟩

/-- The public rectangle-producing operations of the engine, as dispatched by
the GUI callbacks of lbl.py. -/
inductive Op where
  | defaultRect : Op
  | moveDrag (dx dy : ℚ) : Op
  | resizeDrag (cursor_x cursor_y : ℚ) : Op
  | applyAspect : Op
  | applyForced : Op
  | clampKeep (r : Rect) : Op
  | clampClip (r : Rect) : Op
  | reproject (previous_scale prev_image_x0 prev_image_y0 : ℚ) : Op

/-- The rectangle produced by one public operation (`none` when the operation
is a no-op that leaves the stored rectangle untouched). -/
def runOp (s : Selector) : Op → Option Rect
  | .defaultRect => some (create_default_rect s)
  | .moveDrag dx dy => s.rect.map fun r => move_step s r dx dy
  | .resizeDrag cx cy => s.rect.map fun r => resize_rect s r.x1 r.y1 r.x2 r.y2 cx cy
  | .applyAspect =>
      match s.rect, s.aspect_ratio with
      | some r, some ratio => if ratio = 0 then none else some (aspect_project s r ratio)
      | _, _ => none
  | .applyForced =>
      match s.rect, s.forced_dimensions with
      | some r, some (w, h) => some (forced_project s r w h)
      | _, _ => none
  | .clampKeep r => some (clamp_rect s r.x1 r.y1 r.x2 r.y2 true)
  | .clampClip r => some (clamp_rect s r.x1 r.y1 r.x2 r.y2 false)
  | .reproject ps px py => s.rect.map fun r => on_resize_commit_reproject s ps px py r

/-- The rectangle is not inverted. -/
def Rect.ordered (r : Rect) : Prop := r.x1 ≤ r.x2 ∧ r.y1 ≤ r.y2

/-- States the running program actually reaches: the display scale is
positive (`render_page` takes a minimum of two positive ratios), canvas and
image extents are nonnegative, a stored aspect ratio is positive (it comes
from `parse_aspect_ratio`), stored forced dimensions are nonnegative, and the
stored rectangle is not inverted. -/
def WellFormed (s : Selector) : Prop :=
  0 < s.scale ∧ 0 ≤ s.canvas_width ∧ 0 ≤ s.canvas_height ∧
  0 ≤ s.image_width ∧ 0 ≤ s.image_height ∧
  (∀ q, s.aspect_ratio = some q → 0 < q) ∧
  (∀ w h, s.forced_dimensions = some (w, h) → 0 ≤ w ∧ 0 ≤ h) ∧
  (∀ r, s.rect = some r → r.ordered)

/-- Side conditions on an operation's own arguments: rectangles handed
directly to the clamper are not inverted, and the previous display scale of a
viewport re-projection is nonnegative (it is a former value of `self.scale`).
-/
def OpOK : Op → Prop
  | .clampKeep r => r.ordered
  | .clampClip r => r.ordered
  | .reproject ps _ _ => 0 ≤ ps
  | _ => True

/-- The rectangle lies inside the rendered page image. -/
def insideImage (s : Selector) (r : Rect) : Prop :=
  s.image_x0 ≤ r.x1 ∧ r.x2 ≤ s.image_x0 + s.image_width ∧
  s.image_y0 ≤ r.y1 ∧ r.y2 ≤ s.image_y0 + s.image_height

/-- Concrete selector for the move-drag counterexample: a 100×100 page image
inside a larger canvas, and a stored rectangle wider than the image. -/
def S4 : Selector :=
  { page_height := 600, scale := 1, rect := some ⟨0, 0, 150, 50⟩,
    resize_edges := none, aspect_ratio := none, forced_dimensions := none,
    canvas_width := 200, canvas_height := 200,
    image_x0 := 0, image_y0 := 0, image_width := 100, image_height := 100 }

/-- Concrete page geometry of Scenario D: `scale = 0.5`, page height 792 pt,
image origin `(0,0)`. -/
def S6 : Selector :=
  { page_height := 792, scale := 1/2, rect := none,
    resize_edges := none, aspect_ratio := none, forced_dimensions := none,
    canvas_width := 0, canvas_height := 0,
    image_x0 := 0, image_y0 := 0, image_width := 0, image_height := 0 }

/-- Concrete geometry witnessing the round-trip theorem's hypotheses. -/
def SW7 : Selector :=
  { page_height := 792, scale := 1/2, rect := none,
    resize_edges := none, aspect_ratio := none, forced_dimensions := none,
    canvas_width := 400, canvas_height := 400,
    image_x0 := 3, image_y0 := 2, image_width := 306, image_height := 396 }

/-- Concrete selector for the forced-dimensions entry evaluations: an
800×600 page image filling the canvas, scale 1, stored rectangle
`(300,200)-(500,400)`. -/
def S1 : Selector :=
  { page_height := 600, scale := 1, rect := some ⟨300, 200, 500, 400⟩,
    resize_edges := none, aspect_ratio := none, forced_dimensions := none,
    canvas_width := 800, canvas_height := 600,
    image_x0 := 0, image_y0 := 0, image_width := 800, image_height := 600 }

/-- Concrete selector for the containment counterexample: the page image is
letterboxed (600 wide at `x0 = 100` inside an 800-wide canvas), and a
positive Force Dimensions target of 700×400 points is stored: the cap in
`apply_forced_dimensions_to_rect` is the canvas size, not the image size. -/
def S3 : Selector :=
  { page_height := 600, scale := 1, rect := some ⟨300, 200, 500, 400⟩,
    resize_edges := none, aspect_ratio := none, forced_dimensions := some (700, 400),
    canvas_width := 800, canvas_height := 600,
    image_x0 := 100, image_y0 := 0, image_width := 600, image_height := 600 }

/-- Concrete selector for the aspect-centre counterexample: unit scale,
100×100 image at the origin, and a stored rectangle protruding to the left
of the image. -/
def SC5 : Selector :=
  { page_height := 100, scale := 1, rect := some ⟨-50, 0, 50, 100⟩,
    resize_edges := none, aspect_ratio := some 1, forced_dimensions := none,
    canvas_width := 100, canvas_height := 100,
    image_x0 := 0, image_y0 := 0, image_width := 100, image_height := 100 }

/-- Concrete selector for the freeform-resize counterexample: a left-edge
drag whose pointer is outside the image bounds. -/
def S9 : Selector :=
  { page_height := 100, scale := 1, rect := some ⟨20, 20, 80, 80⟩,
    resize_edges := some ⟨true, false, false, false⟩, aspect_ratio := none,
    forced_dimensions := none, canvas_width := 100, canvas_height := 100,
    image_x0 := 0, image_y0 := 0, image_width := 100, image_height := 100 }

section ClampLemmas

variable (s : Selector) (x1 y1 x2 y2 : ℚ)

lemma clamp_keep_eq :
    clamp_rect s x1 y1 x2 y2 true =
      ⟨min (max x1 s.image_x0) (s.image_x0 + s.image_width - (x2 - x1)),
       min (max y1 s.image_y0) (s.image_y0 + s.image_height - (y2 - y1)),
       min (max x1 s.image_x0) (s.image_x0 + s.image_width - (x2 - x1)) + (x2 - x1),
       min (max y1 s.image_y0) (s.image_y0 + s.image_height - (y2 - y1)) + (y2 - y1)⟩ := by
  simp [clamp_rect]

lemma clamp_clip_eq :
    clamp_rect s x1 y1 x2 y2 false =
      ⟨max s.image_x0 (min x1 (s.image_x0 + s.image_width)),
       max s.image_y0 (min y1 (s.image_y0 + s.image_height)),
       max s.image_x0 (min x2 (s.image_x0 + s.image_width)),
       max s.image_y0 (min y2 (s.image_y0 + s.image_height))⟩ := by
  simp [clamp_rect]

lemma clamp_keep_width :
    (clamp_rect s x1 y1 x2 y2 true).x2 - (clamp_rect s x1 y1 x2 y2 true).x1 = x2 - x1 := by
  simp [clamp_keep_eq]

lemma clamp_keep_height :
    (clamp_rect s x1 y1 x2 y2 true).y2 - (clamp_rect s x1 y1 x2 y2 true).y1 = y2 - y1 := by
  simp [clamp_keep_eq]

lemma clamp_keep_ordered (hx : x1 ≤ x2) (hy : y1 ≤ y2) :
    (clamp_rect s x1 y1 x2 y2 true).ordered := by
  simp only [clamp_keep_eq, Rect.ordered]
  constructor <;> [linarith; linarith]

lemma clamp_keep_x2_le :
    (clamp_rect s x1 y1 x2 y2 true).x2 ≤ s.image_x0 + s.image_width := by
  simp only [clamp_keep_eq]
  have h := min_le_right (max x1 s.image_x0) (s.image_x0 + s.image_width - (x2 - x1))
  linarith

lemma clamp_keep_y2_le :
    (clamp_rect s x1 y1 x2 y2 true).y2 ≤ s.image_y0 + s.image_height := by
  simp only [clamp_keep_eq]
  have h := min_le_right (max y1 s.image_y0) (s.image_y0 + s.image_height - (y2 - y1))
  linarith

lemma clamp_keep_x1_ge (h : x2 - x1 ≤ s.image_width) :
    s.image_x0 ≤ (clamp_rect s x1 y1 x2 y2 true).x1 := by
  simp only [clamp_keep_eq]
  have h1 := le_max_right x1 s.image_x0
  exact le_min (le_max_right x1 s.image_x0) (by linarith)

lemma clamp_keep_y1_ge (h : y2 - y1 ≤ s.image_height) :
    s.image_y0 ≤ (clamp_rect s x1 y1 x2 y2 true).y1 := by
  simp only [clamp_keep_eq]
  exact le_min (le_max_right y1 s.image_y0) (by linarith)

lemma clamp_clip_ordered (hx : x1 ≤ x2) (hy : y1 ≤ y2) :
    (clamp_rect s x1 y1 x2 y2 false).ordered := by
  simp only [clamp_clip_eq, Rect.ordered]
  exact ⟨max_le_max le_rfl (min_le_min hx le_rfl),
         max_le_max le_rfl (min_le_min hy le_rfl)⟩

lemma clamp_clip_x1_ge : s.image_x0 ≤ (clamp_rect s x1 y1 x2 y2 false).x1 := by
  simp only [clamp_clip_eq]
  exact le_max_left _ _

lemma clamp_clip_y1_ge : s.image_y0 ≤ (clamp_rect s x1 y1 x2 y2 false).y1 := by
  simp only [clamp_clip_eq]
  exact le_max_left _ _

lemma clamp_clip_x2_le (h : 0 ≤ s.image_width) :
    (clamp_rect s x1 y1 x2 y2 false).x2 ≤ s.image_x0 + s.image_width := by
  simp only [clamp_clip_eq]
  exact max_le (by linarith) (min_le_right _ _)

lemma clamp_clip_y2_le (h : 0 ≤ s.image_height) :
    (clamp_rect s x1 y1 x2 y2 false).y2 ≤ s.image_y0 + s.image_height := by
  simp only [clamp_clip_eq]
  exact max_le (by linarith) (min_le_right _ _)

end ClampLemmas

/-- C4 (counterexample): the pre-drag rectangle `(0,0)-(150,50)` is wider
(150) than the image bounds (width 100); after a `Moving` drag by `(10,0)`
the clamped rectangle still has width 150, not `min(150,100) = 100` as the
claim states for this case. -/
theorem move_drag_size_counterexample :
    S4.image_width < (150 : ℚ) - 0 ∧
    (move_step S4 ⟨0, 0, 150, 50⟩ 10 0).x2 - (move_step S4 ⟨0, 0, 150, 50⟩ 10 0).x1 = 150 ∧
    min ((150 : ℚ) - 0) S4.image_width = 100 ∧ (150 : ℚ) ≠ 100 := by
  refine ⟨by norm_num [S4], ?_, by norm_num [S4], by norm_num⟩
  rw [show (move_step S4 ⟨0, 0, 150, 50⟩ 10 0) = clamp_rect S4 10 0 160 50 true from by
    norm_num [move_step]]
  rw [clamp_keep_width]
  norm_num

/-- C4 (amended): a `Moving` drag step — translation by the pointer delta
followed by `clamp_rect` with `keep_size=True` — always preserves both the
width and the height of the rectangle exactly, including when the rectangle
is larger than the image bounds on an axis (there the rectangle is pinned
with its low edge outside the bounds, its size untouched). -/
theorem move_drag_preserves_size (s : Selector) (r : Rect) (dx dy : ℚ) :
    (move_step s r dx dy).x2 - (move_step s r dx dy).x1 = r.x2 - r.x1 ∧
    (move_step s r dx dy).y2 - (move_step s r dx dy).y1 = r.y2 - r.y1 := by
  unfold move_step
  rw [clamp_keep_width, clamp_keep_height]
  constructor <;> ring

/-- C6: the canvas-to-document conversion of `save_and_close` computes
`doc_x = (canvas_x - image_x0) / scale`, bottom
`doc_y = page_height - (canvas_y2 - image_y0) / scale` and top
`doc_y = page_height - (canvas_y1 - image_y0) / scale`; on Scenario D —
canvas rectangle `(50,50)-(250,250)`, `scale=0.5`, page height 792, image
origin `(0,0)` — it yields bottom-left `(100, 292)` and top-right
`(500, 692)`. -/
theorem document_space_conversion :
    (∀ (s : Selector) (r : Rect),
      (toDocumentSpace s r).x1 = (r.x1 - s.image_x0) / s.scale ∧
      (toDocumentSpace s r).y1 = s.page_height - (r.y2 - s.image_y0) / s.scale ∧
      (toDocumentSpace s r).x2 = (r.x2 - s.image_x0) / s.scale ∧
      (toDocumentSpace s r).y2 = s.page_height - (r.y1 - s.image_y0) / s.scale) ∧
    toDocumentSpace S6 ⟨50, 50, 250, 250⟩ = ⟨100, 292, 500, 692⟩ := by
  constructor
  · intro s r
    exact ⟨rfl, rfl, rfl, rfl⟩
  · simp only [toDocumentSpace, S6, DocRect.mk.injEq]
    norm_num

/-- C7: converting a rectangle to document space via `save_and_close`'s
formulas and back with the inverse canvas projection returns it exactly (the
arithmetic is exact over `ℚ`, so in particular within the specification's
`1e-6` pt tolerance), for any positive scale and any rectangle inside the
image area. -/
theorem canvas_document_roundtrip (s : Selector) (r : Rect)
    (hs : 0 < s.scale) (hin : insideImage s r) :
    toCanvasSpace s (toDocumentSpace s r) = r := by
  obtain ⟨x1, y1, x2, y2⟩ := r
  have hs' : s.scale ≠ 0 := ne_of_gt hs
  simp only [toDocumentSpace, toCanvasSpace, Rect.mk.injEq]
  refine ⟨?_, ?_, ?_, ?_⟩ <;> field_simp

theorem canvas_document_roundtrip_witness :
    (0 < SW7.scale ∧ insideImage SW7 ⟨10, 10, 20, 20⟩) ∧
    toCanvasSpace SW7 (toDocumentSpace SW7 ⟨10, 10, 20, 20⟩) = ⟨10, 10, 20, 20⟩ :=
  ⟨⟨by norm_num [SW7], by norm_num [insideImage, SW7]⟩,
   canvas_document_roundtrip SW7 ⟨10, 10, 20, 20⟩ (by norm_num [SW7])
     (by norm_num [insideImage, SW7])⟩

/-- C10: `parse_aspect_ratio` returns `None` or a strictly positive ratio for
every input and every behaviour of the underlying float parser (so in
particular it never divides by zero: the division `w / h` is guarded by
`w > 0 and h > 0`); on the concrete composite and plain inputs "4x0", "3:-1",
"-2" and "abc" it returns `None`. -/
theorem parse_aspect_ratio_none_or_positive :
    (∀ (pf : String → Option ℚ) (text : String) (r : ℚ),
        parse_aspect_ratio pf text = some r → 0 < r) ∧
    parse_aspect_ratio pyFloat "4x0" = none ∧
    parse_aspect_ratio pyFloat "3:-1" = none ∧
    parse_aspect_ratio pyFloat "-2" = none ∧
    parse_aspect_ratio pyFloat "abc" = none := by
  refine ⟨?_, by decide, by decide, by decide, by decide⟩
  intro pf text r h
  unfold parse_aspect_ratio at h
  split at h
  · exact absurd h (by simp)
  · dsimp only at h
    split at h
    · exact absurd h (by simp)
    · split at h
      · split at h
        · split at h
          · rename_i hpos
            simp only [Option.some.injEq] at h
            subst h
            exact div_pos hpos.1 hpos.2
          · exact absurd h (by simp)
        · exact absurd h (by simp)
      · split at h
        · split at h
          · rename_i hpos
            simp only [Option.some.injEq] at h
            subst h
            exact hpos
          · exact absurd h (by simp)
        · exact absurd h (by simp)

theorem parse_aspect_ratio_none_or_positive_witness :
    parse_aspect_ratio (fun _ => some 2) "7" = some 2 ∧ 0 < (2 : ℚ) :=
  ⟨by decide, parse_aspect_ratio_none_or_positive.1 (fun _ => some 2) "7" 2 (by decide)⟩

lemma unit_in_eval : pyLower (pyStrip "in") = "in" := by decide

lemma unit_to_points_neg2 : unit_to_points (some (-2)) "in" = some (-144) := by
  simp only [unit_to_points, unit_in_eval, POINTS_PER_INCH, List.mem_cons]
  norm_num

lemma unit_to_points_six : unit_to_points (some 6) "in" = some 432 := by
  simp only [unit_to_points, unit_in_eval, POINTS_PER_INCH, List.mem_cons]
  norm_num

/-- C1 (code bug): a Force Dimensions entry whose width parses to the
negative value `-2` (unit "in", hence `-144` points) is NOT rejected —
`if not width or not height` in `apply_constraints` is falsy only on `None`
and `0.0` — so the constraint is stored as `(-144, 432)` and applied,
replacing the stored rectangle `(300,200)-(500,400)` with the inverted
rectangle `(472,84)-(328,516)`, contradicting the claim that every
non-positive dimension entry leaves the rectangle unchanged. -/
theorem force_dimensions_negative_entry_applied :
    (apply_constraints_force_dimensions S1 (some (-2)) (some 6) "in" "in").forced_dimensions
        = some (-144, 432) ∧
    (apply_constraints_force_dimensions S1 (some (-2)) (some 6) "in" "in").rect
        = some ⟨472, 84, 328, 516⟩ ∧
    S1.rect = some ⟨300, 200, 500, 400⟩ ∧
    ¬ (Rect.mk 472 84 328 516).ordered := by
  have hbody : apply_constraints_force_dimensions S1 (some (-2)) (some 6) "in" "in"
      = apply_forced_dimensions_to_rect
          { S1 with aspect_ratio := none, forced_dimensions := some (-144, 432) } := by
    rw [apply_constraints_force_dimensions, unit_to_points_neg2, unit_to_points_six]
    norm_num
  rw [hbody]
  refine ⟨rfl, ?_, rfl, by norm_num [Rect.ordered]⟩
  show some (forced_project _ ⟨300, 200, 500, 400⟩ (-144) 432) = _
  rw [forced_project, clamp_keep_eq]
  simp only [S1, Rect.mk.injEq]
  norm_num [min_def, max_def]

/-- C2 (counterexample): from the reachable state in which a Force
Dimensions entry of parsed value `-2` inches stored the pair `(-144, 432)`,
the public forced-dimensions application produces the inverted rectangle
`(472,84)-(328,516)` with `x1 > x2`. -/
theorem public_ops_invert_counterexample :
    unit_to_points (some (-2)) "in" = some (-144) ∧
    runOp { S1 with forced_dimensions := some (-144, 432) } .applyForced
        = some ⟨472, 84, 328, 516⟩ ∧
    ¬ (Rect.mk 472 84 328 516).ordered := by
  refine ⟨unit_to_points_neg2, ?_, by norm_num [Rect.ordered]⟩
  show some (forced_project _ ⟨300, 200, 500, 400⟩ (-144) 432) = _
  rw [forced_project, clamp_keep_eq]
  simp only [S1, Rect.mk.injEq]
  norm_num [min_def, max_def]

/-- C3 (counterexample): from the well-formed state `S3` (positive forced
dimensions wider than the image but inside the canvas), the public
forced-dimensions application produces `(0,100)-(700,500)`, whose left edge
`0` lies outside the image bounds `[100, 700]`. -/
theorem containment_counterexample :
    WellFormed S3 ∧
    runOp S3 .applyForced = some ⟨0, 100, 700, 500⟩ ∧
    ¬ insideImage S3 ⟨0, 100, 700, 500⟩ := by
  refine ⟨?_, ?_, ?_⟩
  · refine ⟨by norm_num [S3], by norm_num [S3], by norm_num [S3], by norm_num [S3],
      by norm_num [S3], ?_, ?_, ?_⟩
    · intro q hq
      simp [S3] at hq
    · intro w h hwh
      simp only [S3, Option.some.injEq, Prod.mk.injEq] at hwh
      obtain ⟨h1, h2⟩ := hwh
      exact ⟨by rw [← h1]; norm_num, by rw [← h2]; norm_num⟩
    · intro r hr
      simp only [S3, Option.some.injEq] at hr
      rw [← hr]
      exact ⟨by norm_num, by norm_num⟩
  · show some (forced_project _ ⟨300, 200, 500, 400⟩ 700 400) = _
    rw [forced_project, clamp_keep_eq]
    simp only [S3, Rect.mk.injEq]
    norm_num [min_def, max_def]
  · intro hin
    have h1 := hin.1
    norm_num [S3] at h1

/-- C5 (counterexample): applying `AspectRatio(1)` to the rectangle
`(-50,0)-(50,100)` (already of ratio 1, but protruding left of the image
bounds) translates it to `(0,0)-(100,100)` during the final
`keep_size` clamp: the centre moves from `(0,50)` to `(50,50)`, so the full
application step does not preserve the centre of every rectangle. -/
theorem aspect_center_counterexample :
    aspect_project SC5 ⟨-50, 0, 50, 100⟩ 1 = ⟨0, 0, 100, 100⟩ ∧
    ((0 : ℚ) + 100) / 2 ≠ ((-50 : ℚ) + 50) / 2 := by
  constructor
  · rw [aspect_project, clamp_keep_eq]
    simp only [SC5, Rect.mk.injEq]
    norm_num [min_def, max_def, abs]
  · norm_num

/-- C9 (counterexample): a Freeform left-edge drag of `(20,20)-(80,80)` with
the pointer at `x = -50` yields `x1 = 0` (the tracked value is clipped to
the image bounds by the final `keep_size=False` clamp), not
`min(pointerX, x2 - min_size) = -50` as the claim states. -/
theorem freeform_resize_counterexample :
    resize_rect S9 20 20 80 80 (-50) 50 = ⟨0, 20, 80, 80⟩ ∧
    (Rect.mk 0 20 80 80).x1 ≠ min (-50 : ℚ) (80 - min_size) := by
  constructor
  · rw [resize_rect]
    simp only [S9, Option.getD_some]
    rw [clamp_clip_eq]
    simp only [Rect.mk.injEq, min_size]
    norm_num [min_def, max_def]
  · norm_num [min_size, min_def]

lemma min_size_pos : (0 : ℚ) < min_size := by norm_num [min_size]

lemma corner_order (b : Bool) (a w : ℚ) (hw : 0 < w) :
    (if b = true then a - w else a) ≤ (if b = true then a else a + w) := by
  cases b <;> simp <;> linarith

lemma centered_order (b : Bool) (c w lo hi : ℚ) (hw : 0 ≤ w) (hlohi : lo ≤ hi) :
    (if b = true then c - w / 2 else lo) ≤ (if b = true then c + w / 2 else hi) := by
  cases b <;> simp <;> linarith

lemma half_width_le (c u : ℚ) (hu : 0 ≤ u) : c - u / 2 ≤ c + u / 2 := by linarith

lemma ite_pos {c : Prop} [Decidable c] {a b : ℚ} (ha : 0 < a) (hb : 0 < b) :
    (0 : ℚ) < if c then a else b := by
  by_cases h : c
  · rwa [if_pos h]
  · rwa [if_neg h]

lemma edge_pair_order (bl br : Bool) (x1 x2 cx m : ℚ) (hm : 0 < m) (hx : x1 ≤ x2) :
    (if bl = true then min cx (x2 - m) else x1) ≤
    (if br = true then max cx ((if bl = true then min cx (x2 - m) else x1) + m) else x2) := by
  cases bl <;> cases br <;> simp
  · exact hx
  · exact Or.inr hm.le
  · exact Or.inr hm.le

lemma forced_edge_order (bl br : Bool) (x1 x2 cx w : ℚ) (hw : 0 ≤ w) (hx : x1 ≤ x2) :
    (if br = true then cx - w else (if bl = true then cx else x1)) ≤
    (if br = true then cx else (if bl = true then cx + w else x2)) := by
  cases bl <;> cases br <;> simp <;> linarith

lemma aspect_project_ordered (s : Selector) (r : Rect) (ratio : ℚ) (h : 0 < ratio) :
    (aspect_project s r ratio).ordered := by
  simp only [aspect_project]
  apply clamp_keep_ordered
  · apply half_width_le
    by_cases hc : |r.y2 - r.y1| = 0
    · rw [if_pos hc]
      split
      · linarith
      · exact abs_nonneg _
    · rw [if_neg hc]
      split
      · exact mul_nonneg (abs_nonneg _) h.le
      · exact abs_nonneg _
  · apply half_width_le
    by_cases hc : |r.y2 - r.y1| = 0
    · rw [if_pos hc]
      split
      · norm_num
      · exact div_nonneg (abs_nonneg _) h.le
    · rw [if_neg hc]
      split
      · exact abs_nonneg _
      · exact div_nonneg (abs_nonneg _) h.le

lemma forced_project_ordered (s : Selector) (r : Rect) (wp hp : ℚ)
    (hwp : 0 ≤ wp) (hhp : 0 ≤ hp) (hsc : 0 ≤ s.scale)
    (hcw : 0 ≤ s.canvas_width) (hch : 0 ≤ s.canvas_height) :
    (forced_project s r wp hp).ordered := by
  simp only [forced_project]
  apply clamp_keep_ordered
  · have h1 : (0 : ℚ) ≤ min (wp * s.scale) s.canvas_width :=
      le_min (mul_nonneg hwp hsc) hcw
    linarith
  · have h1 : (0 : ℚ) ≤ min (hp * s.scale) s.canvas_height :=
      le_min (mul_nonneg hhp hsc) hch
    linarith

lemma move_step_ordered (s : Selector) (r : Rect) (dx dy : ℚ) (hord : r.ordered) :
    (move_step s r dx dy).ordered := by
  obtain ⟨h1, h2⟩ := hord
  exact clamp_keep_ordered s _ _ _ _ (by linarith) (by linarith)

lemma create_default_rect_ordered (s : Selector)
    (hsc : 0 ≤ s.scale) (hiw : 0 ≤ s.image_width) (hih : 0 ≤ s.image_height) :
    (create_default_rect s).ordered := by
  simp only [create_default_rect, POINTS_PER_INCH, Rect.ordered]
  have hdw : (0 : ℚ) ≤ 4 * 72 * s.scale := by positivity
  have hdh : (0 : ℚ) ≤ 6 * 72 * s.scale := by positivity
  have hfr : (0 : ℚ) ≤
      (if 0 < 4 * 72 * s.scale ∧ 0 < 6 * 72 * s.scale
       then min (min (s.image_width / (4 * 72 * s.scale)) (s.image_height / (6 * 72 * s.scale))) 1
       else 1) := by
    split
    · exact le_min (le_min (div_nonneg hiw hdw) (div_nonneg hih hdh)) zero_le_one
    · norm_num
  constructor
  · have := mul_nonneg hdw hfr
    linarith
  · have := mul_nonneg hdh hfr
    linarith

lemma on_resize_commit_reproject_ordered (s : Selector)
    (ps px py : ℚ) (r : Rect) (hps : 0 ≤ ps) (hsc : 0 ≤ s.scale) (hord : r.ordered) :
    (on_resize_commit_reproject s ps px py r).ordered := by
  simp only [on_resize_commit_reproject]
  have hps' : (0 : ℚ) < (if ps = 0 then 1 else ps) := by
    split
    · norm_num
    · rename_i hz
      exact lt_of_le_of_ne hps (Ne.symm hz)
  apply clamp_keep_ordered
  · have h1 : (r.x1 - px) / (if ps = 0 then 1 else ps) ≤ (r.x2 - px) / (if ps = 0 then 1 else ps) :=
      div_le_div_of_nonneg_right (by linarith [hord.1]) hps'.le
    have h2 := mul_le_mul_of_nonneg_right h1 hsc
    linarith
  · have h1 : (r.y1 - py) / (if ps = 0 then 1 else ps) ≤ (r.y2 - py) / (if ps = 0 then 1 else ps) :=
      div_le_div_of_nonneg_right (by linarith [hord.2]) hps'.le
    have h2 := mul_le_mul_of_nonneg_right h1 hsc
    linarith

set_option maxHeartbeats 1600000 in
lemma resize_rect_ordered (s : Selector) (x1 y1 x2 y2 cx cy : ℚ)
    (hsc : 0 ≤ s.scale) (hcw : 0 ≤ s.canvas_width) (hch : 0 ≤ s.canvas_height)
    (hfd : ∀ w h, s.forced_dimensions = some (w, h) → 0 ≤ w ∧ 0 ≤ h)
    (har : ∀ q, s.aspect_ratio = some q → 0 < q)
    (hx : x1 ≤ x2) (hy : y1 ≤ y2) :
    (resize_rect s x1 y1 x2 y2 cx cy).ordered := by
  rw [resize_rect]
  set E := s.resize_edges.getD ⟨false, false, false, false⟩ with hE
  rcases hfdv : s.forced_dimensions with _ | ⟨wp, hp⟩
  · simp only [hfdv]
    generalize hg1 : (if E.left = true then min cx (x2 - min_size) else x1) = X1a
    generalize hg2 : (if E.right = true then max cx (X1a + min_size) else x2) = X2a
    generalize hg3 : (if E.top = true then min cy (y2 - min_size) else y1) = Y1a
    generalize hg4 : (if E.bottom = true then max cy (Y1a + min_size) else y2) = Y2a
    have hxa : X1a ≤ X2a := by
      rw [← hg2, ← hg1]
      exact edge_pair_order E.left E.right x1 x2 cx min_size min_size_pos hx
    have hya : Y1a ≤ Y2a := by
      rw [← hg4, ← hg3]
      exact edge_pair_order E.top E.bottom y1 y2 cy min_size min_size_pos hy
    rcases harv : s.aspect_ratio with _ | ratio
    · simp only [harv]
      exact clamp_clip_ordered s _ _ _ _ hxa hya
    · have hr0 : 0 < ratio := har ratio harv
      simp only [harv]
      rw [if_neg (ne_of_gt hr0)]
      by_cases hcd : ((E.left || E.right) && (E.top || E.bottom)) = true
      · rw [if_pos hcd]
        apply clamp_clip_ordered
        · exact corner_order E.left _ _
            (ite_pos (lt_of_lt_of_le min_size_pos le_sup_left)
              (mul_pos (lt_of_lt_of_le min_size_pos le_sup_left) hr0))
        · exact corner_order E.top _ _
            (ite_pos (div_pos (lt_of_lt_of_le min_size_pos le_sup_left) hr0)
              (lt_of_lt_of_le min_size_pos le_sup_left))
      · rw [if_neg hcd]
        apply clamp_clip_ordered
        · exact centered_order _ _ _ _ _
            (mul_nonneg (le_of_lt (lt_of_lt_of_le min_size_pos le_sup_left)) hr0.le) hxa
        · exact centered_order _ _ _ _ _
            (div_nonneg (le_of_lt (lt_of_lt_of_le min_size_pos le_sup_left)) hr0.le) hya
  · obtain ⟨hwp, hhp⟩ := hfd wp hp hfdv
    simp only [hfdv]
    have hw0 : (0 : ℚ) ≤ min (wp * s.scale) s.canvas_width :=
      le_min (mul_nonneg hwp hsc) hcw
    have hh0 : (0 : ℚ) ≤ min (hp * s.scale) s.canvas_height :=
      le_min (mul_nonneg hhp hsc) hch
    apply clamp_keep_ordered
    · exact forced_edge_order E.left E.right x1 x2 cx _ hw0 hx
    · exact forced_edge_order E.top E.bottom y1 y2 cy _ hh0 hy

/-- C2 (amended): provided the applied constraint parameters are the ones the
running program can actually hold with nonnegative forced dimensions — the
unvalidated negative dimension entry of the counterexample excluded — every
public rectangle-producing operation of the engine yields a rectangle with
`x1 ≤ x2` and `y1 ≤ y2`. -/
theorem public_ops_never_invert (s : Selector) (op : Op) (R : Rect)
    (hs : WellFormed s) (hop : OpOK op) (h : runOp s op = some R) :
    R.x1 ≤ R.x2 ∧ R.y1 ≤ R.y2 := by
  obtain ⟨hsc, hcw, hch, hiw, hih, har, hfd, hrect⟩ := hs
  cases op with
  | defaultRect =>
      simp only [runOp, Option.some.injEq] at h
      subst h
      exact create_default_rect_ordered s hsc.le hiw hih
  | moveDrag dx dy =>
      simp only [runOp, Option.map_eq_some'] at h
      obtain ⟨r, hr, hfr⟩ := h
      subst hfr
      exact move_step_ordered s r dx dy (hrect r hr)
  | resizeDrag cx cy =>
      simp only [runOp, Option.map_eq_some'] at h
      obtain ⟨r, hr, hfr⟩ := h
      subst hfr
      obtain ⟨h1, h2⟩ := hrect r hr
      exact resize_rect_ordered s r.x1 r.y1 r.x2 r.y2 cx cy hsc.le hcw hch hfd har h1 h2
  | applyAspect =>
      rcases hr : s.rect with _ | r
      · simp [runOp, hr] at h
      · rcases ha : s.aspect_ratio with _ | ratio
        · simp [runOp, hr, ha] at h
        · have hr0 : 0 < ratio := har ratio ha
          simp only [runOp, hr, ha] at h
          rw [if_neg (ne_of_gt hr0)] at h
          obtain rfl := (Option.some.injEq _ _).mp h
          exact aspect_project_ordered s r ratio hr0
  | applyForced =>
      rcases hr : s.rect with _ | r
      · simp [runOp, hr] at h
      · rcases hf : s.forced_dimensions with _ | ⟨wp, hp⟩
        · simp [runOp, hr, hf] at h
        · obtain ⟨hwp, hhp⟩ := hfd wp hp hf
          simp only [runOp, hr, hf, Option.some.injEq] at h
          subst h
          exact forced_project_ordered s r wp hp hwp hhp hsc.le hcw hch
  | clampKeep r =>
      simp only [runOp, Option.some.injEq] at h
      subst h
      simp only [OpOK] at hop
      exact clamp_keep_ordered s _ _ _ _ hop.1 hop.2
  | clampClip r =>
      simp only [runOp, Option.some.injEq] at h
      subst h
      simp only [OpOK] at hop
      exact clamp_clip_ordered s _ _ _ _ hop.1 hop.2
  | reproject ps px py =>
      simp only [runOp, Option.map_eq_some'] at h
      obtain ⟨r, hr, hfr⟩ := h
      subst hfr
      simp only [OpOK] at hop
      exact on_resize_commit_reproject_ordered s ps px py r hop hsc.le (hrect r hr)

theorem public_ops_never_invert_witness :
    (WellFormed S1 ∧ OpOK (Op.moveDrag 5 5) ∧
        runOp S1 (Op.moveDrag 5 5) = some ⟨305, 205, 505, 405⟩) ∧
    (Rect.mk 305 205 505 405).x1 ≤ (Rect.mk 305 205 505 405).x2 ∧
    (Rect.mk 305 205 505 405).y1 ≤ (Rect.mk 305 205 505 405).y2 := by
  have hwf : WellFormed S1 := by
    refine ⟨by norm_num [S1], by norm_num [S1], by norm_num [S1], by norm_num [S1],
      by norm_num [S1], ?_, ?_, ?_⟩
    · intro q hq
      simp [S1] at hq
    · intro w h hwh
      simp [S1] at hwh
    · intro r hr
      simp only [S1, Option.some.injEq] at hr
      rw [← hr]
      exact ⟨by norm_num, by norm_num⟩
  have hrun : runOp S1 (Op.moveDrag 5 5) = some ⟨305, 205, 505, 405⟩ := by
    show (S1.rect.map fun r => move_step S1 r 5 5) = _
    simp only [S1, Option.map_some']
    rw [move_step, clamp_keep_eq]
    simp only [Rect.mk.injEq]
    norm_num [min_def, max_def]
  exact ⟨⟨hwf, trivial, hrun⟩,
    public_ops_never_invert S1 (Op.moveDrag 5 5) ⟨305, 205, 505, 405⟩ hwf trivial hrun⟩

lemma clamp_keep_contained (s : Selector) (a b c d : ℚ) :
    ((clamp_rect s a b c d true).x2 ≤ s.image_x0 + s.image_width ∧
     (clamp_rect s a b c d true).y2 ≤ s.image_y0 + s.image_height) ∧
    ((clamp_rect s a b c d true).x2 - (clamp_rect s a b c d true).x1 ≤ s.image_width →
      s.image_x0 ≤ (clamp_rect s a b c d true).x1) ∧
    ((clamp_rect s a b c d true).y2 - (clamp_rect s a b c d true).y1 ≤ s.image_height →
      s.image_y0 ≤ (clamp_rect s a b c d true).y1) := by
  refine ⟨⟨clamp_keep_x2_le s a b c d, clamp_keep_y2_le s a b c d⟩, ?_, ?_⟩
  · rw [clamp_keep_width]
    exact clamp_keep_x1_ge s a b c d
  · rw [clamp_keep_height]
    exact clamp_keep_y1_ge s a b c d

lemma clamp_clip_contained (s : Selector) (a b c d : ℚ)
    (hiw : 0 ≤ s.image_width) (hih : 0 ≤ s.image_height) :
    ((clamp_rect s a b c d false).x2 ≤ s.image_x0 + s.image_width ∧
     (clamp_rect s a b c d false).y2 ≤ s.image_y0 + s.image_height) ∧
    ((clamp_rect s a b c d false).x2 - (clamp_rect s a b c d false).x1 ≤ s.image_width →
      s.image_x0 ≤ (clamp_rect s a b c d false).x1) ∧
    ((clamp_rect s a b c d false).y2 - (clamp_rect s a b c d false).y1 ≤ s.image_height →
      s.image_y0 ≤ (clamp_rect s a b c d false).y1) := by
  exact ⟨⟨clamp_clip_x2_le s a b c d hiw, clamp_clip_y2_le s a b c d hih⟩,
    fun _ => clamp_clip_x1_ge s a b c d, fun _ => clamp_clip_y1_ge s a b c d⟩

lemma resize_rect_cases (s : Selector) (x1 y1 x2 y2 cx cy : ℚ) :
    (∃ a b c d, resize_rect s x1 y1 x2 y2 cx cy = clamp_rect s a b c d true) ∨
    (∃ a b c d, resize_rect s x1 y1 x2 y2 cx cy = clamp_rect s a b c d false) := by
  rw [resize_rect]
  set E := s.resize_edges.getD ⟨false, false, false, false⟩ with hE
  rcases hfdv : s.forced_dimensions with _ | ⟨wp, hp⟩
  · simp only [hfdv]
    generalize (if E.left = true then min cx (x2 - min_size) else x1) = X1a
    generalize (if E.right = true then max cx (X1a + min_size) else x2) = X2a
    generalize (if E.top = true then min cy (y2 - min_size) else y1) = Y1a
    generalize (if E.bottom = true then max cy (Y1a + min_size) else y2) = Y2a
    rcases harv : s.aspect_ratio with _ | ratio
    · simp only [harv]
      exact Or.inr ⟨_, _, _, _, rfl⟩
    · simp only [harv]
      right
      split
      · exact ⟨_, _, _, _, rfl⟩
      · split
        · exact ⟨_, _, _, _, rfl⟩
        · exact ⟨_, _, _, _, rfl⟩
  · simp only [hfdv]
    exact Or.inl ⟨_, _, _, _, rfl⟩

lemma create_default_rect_contained (s : Selector)
    (hsc : 0 < s.scale) (hiw : 0 ≤ s.image_width) (hih : 0 ≤ s.image_height) :
    ((create_default_rect s).x2 ≤ s.image_x0 + s.image_width ∧
     (create_default_rect s).y2 ≤ s.image_y0 + s.image_height) ∧
    ((create_default_rect s).x2 - (create_default_rect s).x1 ≤ s.image_width →
      s.image_x0 ≤ (create_default_rect s).x1) ∧
    ((create_default_rect s).y2 - (create_default_rect s).y1 ≤ s.image_height →
      s.image_y0 ≤ (create_default_rect s).y1) := by
  simp only [create_default_rect, POINTS_PER_INCH]
  have hdw : (0 : ℚ) < 4 * 72 * s.scale := by positivity
  have hdh : (0 : ℚ) < 6 * 72 * s.scale := by positivity
  rw [if_pos ⟨hdw, hdh⟩]
  have hfr1 : min (min (s.image_width / (4 * 72 * s.scale)) (s.image_height / (6 * 72 * s.scale))) 1
      ≤ s.image_width / (4 * 72 * s.scale) :=
    le_trans (min_le_left _ _) (min_le_left _ _)
  have hfr2 : min (min (s.image_width / (4 * 72 * s.scale)) (s.image_height / (6 * 72 * s.scale))) 1
      ≤ s.image_height / (6 * 72 * s.scale) :=
    le_trans (min_le_left _ _) (min_le_right _ _)
  have h1 : 4 * 72 * s.scale *
      min (min (s.image_width / (4 * 72 * s.scale)) (s.image_height / (6 * 72 * s.scale))) 1
      ≤ s.image_width := by
    calc 4 * 72 * s.scale *
        min (min (s.image_width / (4 * 72 * s.scale)) (s.image_height / (6 * 72 * s.scale))) 1
        ≤ 4 * 72 * s.scale * (s.image_width / (4 * 72 * s.scale)) :=
          mul_le_mul_of_nonneg_left hfr1 hdw.le
      _ = s.image_width := by field_simp
  have h2 : 6 * 72 * s.scale *
      min (min (s.image_width / (4 * 72 * s.scale)) (s.image_height / (6 * 72 * s.scale))) 1
      ≤ s.image_height := by
    calc 6 * 72 * s.scale *
        min (min (s.image_width / (4 * 72 * s.scale)) (s.image_height / (6 * 72 * s.scale))) 1
        ≤ 6 * 72 * s.scale * (s.image_height / (6 * 72 * s.scale)) :=
          mul_le_mul_of_nonneg_left hfr2 hdh.le
      _ = s.image_height := by field_simp
  refine ⟨⟨by linarith, by linarith⟩, ?_, ?_⟩ <;> intro hpre <;> linarith

/-- C3 (amended): every rectangle produced by a public operation from a
well-formed state has its right and bottom edges inside the image bounds, and
is fully contained in the bounds whenever its width and height fit within
them (which is always the case for `keep_size=False` clamping, where each
coordinate is clipped into the bounds exactly, with no epsilon needed over
exact arithmetic); when the rectangle is larger than the bounds on an axis —
possible because forced dimensions are capped at the canvas size, not the
image size — it is pinned with only its left/top edge outside. -/
theorem public_ops_containment (s : Selector) (op : Op) (R : Rect)
    (hs : WellFormed s) (hop : OpOK op) (h : runOp s op = some R) :
    (R.x2 ≤ s.image_x0 + s.image_width ∧ R.y2 ≤ s.image_y0 + s.image_height) ∧
    (R.x2 - R.x1 ≤ s.image_width → s.image_x0 ≤ R.x1) ∧
    (R.y2 - R.y1 ≤ s.image_height → s.image_y0 ≤ R.y1) := by
  obtain ⟨hsc, hcw, hch, hiw, hih, har, hfd, hrect⟩ := hs
  cases op with
  | defaultRect =>
      simp only [runOp, Option.some.injEq] at h
      subst h
      exact create_default_rect_contained s hsc hiw hih
  | moveDrag dx dy =>
      simp only [runOp, Option.map_eq_some'] at h
      obtain ⟨r, _, hfr⟩ := h
      subst hfr
      simp only [move_step]
      exact clamp_keep_contained s _ _ _ _
  | resizeDrag cx cy =>
      simp only [runOp, Option.map_eq_some'] at h
      obtain ⟨r, _, hfr⟩ := h
      subst hfr
      rcases resize_rect_cases s r.x1 r.y1 r.x2 r.y2 cx cy with ⟨a, b, c, d, heq⟩ | ⟨a, b, c, d, heq⟩
      · rw [heq]
        exact clamp_keep_contained s a b c d
      · rw [heq]
        exact clamp_clip_contained s a b c d hiw hih
  | applyAspect =>
      rcases hr : s.rect with _ | r
      · simp [runOp, hr] at h
      · rcases ha : s.aspect_ratio with _ | ratio
        · simp [runOp, hr, ha] at h
        · have hr0 : 0 < ratio := har ratio ha
          simp only [runOp, hr, ha] at h
          rw [if_neg (ne_of_gt hr0)] at h
          obtain rfl := (Option.some.injEq _ _).mp h
          simp only [aspect_project]
          exact clamp_keep_contained s _ _ _ _
  | applyForced =>
      rcases hr : s.rect with _ | r
      · simp [runOp, hr] at h
      · rcases hf : s.forced_dimensions with _ | ⟨wp, hp⟩
        · simp [runOp, hr, hf] at h
        · simp only [runOp, hr, hf, Option.some.injEq] at h
          subst h
          simp only [forced_project]
          exact clamp_keep_contained s _ _ _ _
  | clampKeep r =>
      simp only [runOp, Option.some.injEq] at h
      subst h
      exact clamp_keep_contained s _ _ _ _
  | clampClip r =>
      simp only [runOp, Option.some.injEq] at h
      subst h
      exact clamp_clip_contained s _ _ _ _ hiw hih
  | reproject ps px py =>
      simp only [runOp, Option.map_eq_some'] at h
      obtain ⟨r, _, hfr⟩ := h
      subst hfr
      simp only [on_resize_commit_reproject]
      exact clamp_keep_contained s _ _ _ _

theorem public_ops_containment_witness :
    (WellFormed S1 ∧ OpOK (Op.moveDrag 5 5) ∧
        runOp S1 (Op.moveDrag 5 5) = some ⟨305, 205, 505, 405⟩) ∧
    ((Rect.mk 305 205 505 405).x2 ≤ S1.image_x0 + S1.image_width ∧
     (Rect.mk 305 205 505 405).y2 ≤ S1.image_y0 + S1.image_height) ∧
    ((Rect.mk 305 205 505 405).x2 - (Rect.mk 305 205 505 405).x1 ≤ S1.image_width →
      S1.image_x0 ≤ (Rect.mk 305 205 505 405).x1) ∧
    ((Rect.mk 305 205 505 405).y2 - (Rect.mk 305 205 505 405).y1 ≤ S1.image_height →
      S1.image_y0 ≤ (Rect.mk 305 205 505 405).y1) := by
  have hwf : WellFormed S1 := by
    refine ⟨by norm_num [S1], by norm_num [S1], by norm_num [S1], by norm_num [S1],
      by norm_num [S1], ?_, ?_, ?_⟩
    · intro q hq
      simp [S1] at hq
    · intro w h hwh
      simp [S1] at hwh
    · intro r hr
      simp only [S1, Option.some.injEq] at hr
      rw [← hr]
      exact ⟨by norm_num, by norm_num⟩
  have hrun : runOp S1 (Op.moveDrag 5 5) = some ⟨305, 205, 505, 405⟩ := by
    show (S1.rect.map fun r => move_step S1 r 5 5) = _
    simp only [S1, Option.map_some']
    rw [move_step, clamp_keep_eq]
    simp only [Rect.mk.injEq]
    norm_num [min_def, max_def]
  exact ⟨⟨hwf, trivial, hrun⟩,
    public_ops_containment S1 (Op.moveDrag 5 5) ⟨305, 205, 505, 405⟩ hwf trivial hrun⟩

lemma clamp_keep_id (s : Selector) (x1 y1 x2 y2 : ℚ)
    (h1 : s.image_x0 ≤ x1) (h2 : x2 ≤ s.image_x0 + s.image_width)
    (h3 : s.image_y0 ≤ y1) (h4 : y2 ≤ s.image_y0 + s.image_height) :
    clamp_rect s x1 y1 x2 y2 true = ⟨x1, y1, x2, y2⟩ := by
  rw [clamp_keep_eq]
  rw [max_eq_left h1, max_eq_left h3]
  rw [min_eq_left (by linarith : x1 ≤ s.image_x0 + s.image_width - (x2 - x1))]
  rw [min_eq_left (by linarith : y1 ≤ s.image_y0 + s.image_height - (y2 - y1))]
  rw [show x1 + (x2 - x1) = x2 from by ring, show y1 + (y2 - y1) = y2 from by ring]

/-- C5 (amended): the full AspectRatio application step — centre-preserving
ratio projection followed by the `keep_size` clamp — preserves the centre and
achieves `width / height = ratio` exactly, by the claimed shrink rule,
provided the input rectangle has positive width and height and lies inside
the image bounds (so the final clamp does not translate it; the
counterexample shows the centre moves for a rectangle protruding outside the
bounds).  In particular Scenario B holds: `AspectRatio(2)` maps
`(100,100)-(300,400)` to `(100,200)-(300,300)`. -/
theorem aspect_ratio_center_and_rule :
    (∀ (s : Selector) (r : Rect) (ratio : ℚ),
      0 < ratio → r.x1 < r.x2 → r.y1 < r.y2 → insideImage s r →
      ((aspect_project s r ratio).x1 + (aspect_project s r ratio).x2) / 2 = (r.x1 + r.x2) / 2 ∧
      ((aspect_project s r ratio).y1 + (aspect_project s r ratio).y2) / 2 = (r.y1 + r.y2) / 2 ∧
      ((aspect_project s r ratio).x2 - (aspect_project s r ratio).x1) /
        ((aspect_project s r ratio).y2 - (aspect_project s r ratio).y1) = ratio ∧
      (aspect_project s r ratio).x2 - (aspect_project s r ratio).x1 =
        (if (r.x2 - r.x1) / (r.y2 - r.y1) > ratio then (r.y2 - r.y1) * ratio else r.x2 - r.x1) ∧
      (aspect_project s r ratio).y2 - (aspect_project s r ratio).y1 =
        (if (r.x2 - r.x1) / (r.y2 - r.y1) > ratio then r.y2 - r.y1 else (r.x2 - r.x1) / ratio)) ∧
    aspect_project S1 ⟨100, 100, 300, 400⟩ 2 = ⟨100, 200, 300, 300⟩ := by
  constructor
  · intro s r ratio hratio hx hy hin
    obtain ⟨hinL, hinR, hinT, hinB⟩ := hin
    have hwpos : (0 : ℚ) < r.x2 - r.x1 := by linarith
    have hhpos : (0 : ℚ) < r.y2 - r.y1 := by linarith
    have hWle : (if (r.x2 - r.x1) / (r.y2 - r.y1) > ratio
        then (r.y2 - r.y1) * ratio else r.x2 - r.x1) ≤ r.x2 - r.x1 := by
      by_cases hP : (r.x2 - r.x1) / (r.y2 - r.y1) > ratio
      · rw [if_pos hP]
        have := (lt_div_iff hhpos).mp hP
        linarith
      · rw [if_neg hP]
    have hW0 : (0 : ℚ) ≤ (if (r.x2 - r.x1) / (r.y2 - r.y1) > ratio
        then (r.y2 - r.y1) * ratio else r.x2 - r.x1) := by
      by_cases hP : (r.x2 - r.x1) / (r.y2 - r.y1) > ratio
      · rw [if_pos hP]
        exact mul_nonneg hhpos.le hratio.le
      · rw [if_neg hP]
        exact hwpos.le
    have hHle : (if (r.x2 - r.x1) / (r.y2 - r.y1) > ratio
        then r.y2 - r.y1 else (r.x2 - r.x1) / ratio) ≤ r.y2 - r.y1 := by
      by_cases hP : (r.x2 - r.x1) / (r.y2 - r.y1) > ratio
      · rw [if_pos hP]
      · rw [if_neg hP]
        rw [div_le_iff hratio]
        have := (div_le_iff hhpos).mp (le_of_not_lt hP)
        linarith
    have hH0 : (0 : ℚ) < (if (r.x2 - r.x1) / (r.y2 - r.y1) > ratio
        then r.y2 - r.y1 else (r.x2 - r.x1) / ratio) := by
      by_cases hP : (r.x2 - r.x1) / (r.y2 - r.y1) > ratio
      · rw [if_pos hP]
        exact hhpos
      · rw [if_neg hP]
        exact div_pos hwpos hratio
    have hkey : aspect_project s r ratio =
        ⟨(r.x1 + r.x2) / 2 - (if (r.x2 - r.x1) / (r.y2 - r.y1) > ratio
            then (r.y2 - r.y1) * ratio else r.x2 - r.x1) / 2,
         (r.y1 + r.y2) / 2 - (if (r.x2 - r.x1) / (r.y2 - r.y1) > ratio
            then r.y2 - r.y1 else (r.x2 - r.x1) / ratio) / 2,
         (r.x1 + r.x2) / 2 + (if (r.x2 - r.x1) / (r.y2 - r.y1) > ratio
            then (r.y2 - r.y1) * ratio else r.x2 - r.x1) / 2,
         (r.y1 + r.y2) / 2 + (if (r.x2 - r.x1) / (r.y2 - r.y1) > ratio
            then r.y2 - r.y1 else (r.x2 - r.x1) / ratio) / 2⟩ := by
      have habs1 : |r.x2 - r.x1| = r.x2 - r.x1 := abs_of_pos hwpos
      have habs2 : |r.y2 - r.y1| = r.y2 - r.y1 := abs_of_pos hhpos
      simp only [aspect_project, habs1, habs2, if_neg (ne_of_gt hhpos)]
      exact clamp_keep_id s _ _ _ _ (by linarith) (by linarith) (by linarith) (by linarith)
    rw [hkey]
    refine ⟨by ring, by ring, ?_, by ring, by ring⟩
    have hsimp : ((r.x1 + r.x2) / 2 + (if (r.x2 - r.x1) / (r.y2 - r.y1) > ratio
          then (r.y2 - r.y1) * ratio else r.x2 - r.x1) / 2) -
        ((r.x1 + r.x2) / 2 - (if (r.x2 - r.x1) / (r.y2 - r.y1) > ratio
          then (r.y2 - r.y1) * ratio else r.x2 - r.x1) / 2) =
        (if (r.x2 - r.x1) / (r.y2 - r.y1) > ratio
          then (r.y2 - r.y1) * ratio else r.x2 - r.x1) := by ring
    have hsimp2 : ((r.y1 + r.y2) / 2 + (if (r.x2 - r.x1) / (r.y2 - r.y1) > ratio
          then r.y2 - r.y1 else (r.x2 - r.x1) / ratio) / 2) -
        ((r.y1 + r.y2) / 2 - (if (r.x2 - r.x1) / (r.y2 - r.y1) > ratio
          then r.y2 - r.y1 else (r.x2 - r.x1) / ratio) / 2) =
        (if (r.x2 - r.x1) / (r.y2 - r.y1) > ratio
          then r.y2 - r.y1 else (r.x2 - r.x1) / ratio) := by ring
    show _ / _ = ratio
    rw [hsimp, hsimp2]
    by_cases hP : (r.x2 - r.x1) / (r.y2 - r.y1) > ratio
    · rw [if_pos hP, if_pos hP, mul_comm]
      exact mul_div_cancel_right₀ ratio (ne_of_gt hhpos)
    · rw [if_neg hP, if_neg hP]
      rw [div_div_eq_mul_div, mul_comm, mul_div_assoc]
      rw [div_self (ne_of_gt hwpos), mul_one]
  · rw [aspect_project, clamp_keep_eq]
    simp only [S1, Rect.mk.injEq]
    norm_num [min_def, max_def, abs]

theorem aspect_ratio_center_and_rule_witness :
    ((0 : ℚ) < 2 ∧ (100 : ℚ) < 300 ∧ (100 : ℚ) < 400 ∧
      insideImage S1 ⟨100, 100, 300, 400⟩) ∧
    ((aspect_project S1 ⟨100, 100, 300, 400⟩ 2).x1 +
      (aspect_project S1 ⟨100, 100, 300, 400⟩ 2).x2) / 2 = ((100 : ℚ) + 300) / 2 := by
  have hin : insideImage S1 ⟨100, 100, 300, 400⟩ := by
    refine ⟨by norm_num [S1], by norm_num [S1], by norm_num [S1], by norm_num [S1]⟩
  exact ⟨⟨by norm_num, by norm_num, by norm_num, hin⟩,
    (aspect_ratio_center_and_rule.1 S1 ⟨100, 100, 300, 400⟩ 2 (by norm_num)
      (by norm_num) (by norm_num) hin).1⟩

lemma ite_nonneg {c : Prop} [Decidable c] {a b : ℚ} (ha : 0 ≤ a) (hb : 0 ≤ b) :
    (0 : ℚ) ≤ if c then a else b := by
  by_cases h : c
  · rwa [if_pos h]
  · rwa [if_neg h]

lemma clamp_keep_proj_idem (L Rb a w : ℚ) :
    min (max (min (max a L) (Rb - w)) L) (Rb - w) = min (max a L) (Rb - w) := by
  rcases le_total L (Rb - w) with hc | hc
  · rw [max_eq_left (le_min (le_max_right a L) hc)]
    exact min_eq_left (min_le_right _ _)
  · rw [min_eq_right (le_trans hc (le_max_right a L)), max_eq_right hc]
    exact min_eq_right hc

lemma clamp_keep_idem (s : Selector) (x1 y1 x2 y2 : ℚ) :
    clamp_rect s (clamp_rect s x1 y1 x2 y2 true).x1 (clamp_rect s x1 y1 x2 y2 true).y1
      (clamp_rect s x1 y1 x2 y2 true).x2 (clamp_rect s x1 y1 x2 y2 true).y2 true
      = clamp_rect s x1 y1 x2 y2 true := by
  simp only [clamp_keep_eq]
  simp only [add_sub_cancel_left]
  rw [clamp_keep_proj_idem, clamp_keep_proj_idem]

lemma aspect_project_congr (s s' : Selector) (r : Rect) (ratio : ℚ)
    (h1 : s'.image_x0 = s.image_x0) (h2 : s'.image_y0 = s.image_y0)
    (h3 : s'.image_width = s.image_width) (h4 : s'.image_height = s.image_height) :
    aspect_project s' r ratio = aspect_project s r ratio := by
  simp only [aspect_project, clamp_rect, h1, h2, h3, h4]

lemma aspect_project_idem (s : Selector) (r : Rect) (ratio : ℚ)
    (hr0 : 0 < ratio) (hord : r.ordered) :
    aspect_project s (aspect_project s r ratio) ratio = aspect_project s r ratio := by
  obtain ⟨hox, hoy⟩ := hord
  have key : (if |r.x2 - r.x1| / (if |r.y2 - r.y1| = 0 then 1 else |r.y2 - r.y1|) > ratio
        then (if |r.y2 - r.y1| = 0 then 1 else |r.y2 - r.y1|) * ratio else |r.x2 - r.x1|) =
      (if |r.x2 - r.x1| / (if |r.y2 - r.y1| = 0 then 1 else |r.y2 - r.y1|) > ratio
        then (if |r.y2 - r.y1| = 0 then 1 else |r.y2 - r.y1|) else |r.x2 - r.x1| / ratio) *
        ratio := by
    by_cases hP : |r.x2 - r.x1| / (if |r.y2 - r.y1| = 0 then 1 else |r.y2 - r.y1|) > ratio
    · rw [if_pos hP, if_pos hP]
    · rw [if_neg hP, if_neg hP]
      exact (div_mul_cancel₀ _ (ne_of_gt hr0)).symm
  have hH0 : (0 : ℚ) ≤ (if |r.x2 - r.x1| / (if |r.y2 - r.y1| = 0 then 1 else |r.y2 - r.y1|) > ratio
        then (if |r.y2 - r.y1| = 0 then 1 else |r.y2 - r.y1|) else |r.x2 - r.x1| / ratio) := by
    by_cases hP : |r.x2 - r.x1| / (if |r.y2 - r.y1| = 0 then 1 else |r.y2 - r.y1|) > ratio
    · rw [if_pos hP]
      exact ite_nonneg zero_le_one (abs_nonneg _)
    · rw [if_neg hP]
      exact div_nonneg (abs_nonneg _) hr0.le
  have hR1 : aspect_project s r ratio =
      clamp_rect s
        ((r.x1 + r.x2) / 2 -
          (if |r.x2 - r.x1| / (if |r.y2 - r.y1| = 0 then 1 else |r.y2 - r.y1|) > ratio
            then (if |r.y2 - r.y1| = 0 then 1 else |r.y2 - r.y1|) * ratio
            else |r.x2 - r.x1|) / 2)
        ((r.y1 + r.y2) / 2 -
          (if |r.x2 - r.x1| / (if |r.y2 - r.y1| = 0 then 1 else |r.y2 - r.y1|) > ratio
            then (if |r.y2 - r.y1| = 0 then 1 else |r.y2 - r.y1|)
            else |r.x2 - r.x1| / ratio) / 2)
        ((r.x1 + r.x2) / 2 +
          (if |r.x2 - r.x1| / (if |r.y2 - r.y1| = 0 then 1 else |r.y2 - r.y1|) > ratio
            then (if |r.y2 - r.y1| = 0 then 1 else |r.y2 - r.y1|) * ratio
            else |r.x2 - r.x1|) / 2)
        ((r.y1 + r.y2) / 2 +
          (if |r.x2 - r.x1| / (if |r.y2 - r.y1| = 0 then 1 else |r.y2 - r.y1|) > ratio
            then (if |r.y2 - r.y1| = 0 then 1 else |r.y2 - r.y1|)
            else |r.x2 - r.x1| / ratio) / 2) true := rfl
  obtain ⟨H, hgH⟩ : ∃ H, (if |r.x2 - r.x1| / (if |r.y2 - r.y1| = 0 then 1 else |r.y2 - r.y1|) > ratio
      then (if |r.y2 - r.y1| = 0 then 1 else |r.y2 - r.y1|)
      else |r.x2 - r.x1| / ratio) = H := ⟨_, rfl⟩
  obtain ⟨W, hgW⟩ : ∃ W, (if |r.x2 - r.x1| / (if |r.y2 - r.y1| = 0 then 1 else |r.y2 - r.y1|) > ratio
      then (if |r.y2 - r.y1| = 0 then 1 else |r.y2 - r.y1|) * ratio
      else |r.x2 - r.x1|) = W := ⟨_, rfl⟩
  rw [hgH] at key hH0
  rw [hgW] at key
  rw [hgW, hgH] at hR1
  have hW0 : (0 : ℚ) ≤ W := by
    rw [key]
    exact mul_nonneg hH0 hr0.le
  have hw2 : (aspect_project s r ratio).x2 - (aspect_project s r ratio).x1 = W := by
    rw [hR1, clamp_keep_width]
    ring
  have hh2 : (aspect_project s r ratio).y2 - (aspect_project s r ratio).y1 = H := by
    rw [hR1, clamp_keep_height]
    ring
  have habsW : |(aspect_project s r ratio).x2 - (aspect_project s r ratio).x1| = W := by
    rw [hw2]
    exact abs_of_nonneg hW0
  have habsH : |(aspect_project s r ratio).y2 - (aspect_project s r ratio).y1| = H := by
    rw [hh2]
    exact abs_of_nonneg hH0
  have hL : aspect_project s (aspect_project s r ratio) ratio =
      clamp_rect s
        (((aspect_project s r ratio).x1 + (aspect_project s r ratio).x2) / 2 -
          (if |(aspect_project s r ratio).x2 - (aspect_project s r ratio).x1| /
              (if |(aspect_project s r ratio).y2 - (aspect_project s r ratio).y1| = 0 then 1
                else |(aspect_project s r ratio).y2 - (aspect_project s r ratio).y1|) > ratio
            then (if |(aspect_project s r ratio).y2 - (aspect_project s r ratio).y1| = 0 then 1
                else |(aspect_project s r ratio).y2 - (aspect_project s r ratio).y1|) * ratio
            else |(aspect_project s r ratio).x2 - (aspect_project s r ratio).x1|) / 2)
        (((aspect_project s r ratio).y1 + (aspect_project s r ratio).y2) / 2 -
          (if |(aspect_project s r ratio).x2 - (aspect_project s r ratio).x1| /
              (if |(aspect_project s r ratio).y2 - (aspect_project s r ratio).y1| = 0 then 1
                else |(aspect_project s r ratio).y2 - (aspect_project s r ratio).y1|) > ratio
            then (if |(aspect_project s r ratio).y2 - (aspect_project s r ratio).y1| = 0 then 1
                else |(aspect_project s r ratio).y2 - (aspect_project s r ratio).y1|)
            else |(aspect_project s r ratio).x2 - (aspect_project s r ratio).x1| / ratio) / 2)
        (((aspect_project s r ratio).x1 + (aspect_project s r ratio).x2) / 2 +
          (if |(aspect_project s r ratio).x2 - (aspect_project s r ratio).x1| /
              (if |(aspect_project s r ratio).y2 - (aspect_project s r ratio).y1| = 0 then 1
                else |(aspect_project s r ratio).y2 - (aspect_project s r ratio).y1|) > ratio
            then (if |(aspect_project s r ratio).y2 - (aspect_project s r ratio).y1| = 0 then 1
                else |(aspect_project s r ratio).y2 - (aspect_project s r ratio).y1|) * ratio
            else |(aspect_project s r ratio).x2 - (aspect_project s r ratio).x1|) / 2)
        (((aspect_project s r ratio).y1 + (aspect_project s r ratio).y2) / 2 +
          (if |(aspect_project s r ratio).x2 - (aspect_project s r ratio).x1| /
              (if |(aspect_project s r ratio).y2 - (aspect_project s r ratio).y1| = 0 then 1
                else |(aspect_project s r ratio).y2 - (aspect_project s r ratio).y1|) > ratio
            then (if |(aspect_project s r ratio).y2 - (aspect_project s r ratio).y1| = 0 then 1
                else |(aspect_project s r ratio).y2 - (aspect_project s r ratio).y1|)
            else |(aspect_project s r ratio).x2 - (aspect_project s r ratio).x1| / ratio) / 2)
        true := rfl
  rw [hL, habsW, habsH]
  have hC1 : ¬ (W / (if H = 0 then 1 else H) > ratio) := by
    by_cases hz : H = 0
    · have hWz : W = 0 := by
        rw [key, hz, zero_mul]
      rw [if_pos hz, hWz]
      norm_num
      exact hr0.le
    · rw [if_neg hz]
      have hWH : W / H = ratio := by
        rw [key]
        exact mul_div_cancel_left₀ ratio hz
      rw [gt_iff_lt, hWH]
      exact lt_irrefl ratio
  rw [if_neg hC1, if_neg hC1]
  have hWr : W / ratio = H := by
    rw [key]
    exact mul_div_cancel_right₀ H (ne_of_gt hr0)
  rw [hWr]
  rw [show ((aspect_project s r ratio).x1 + (aspect_project s r ratio).x2) / 2 - W / 2
        = (aspect_project s r ratio).x1 from by linarith [hw2]]
  rw [show ((aspect_project s r ratio).x1 + (aspect_project s r ratio).x2) / 2 + W / 2
        = (aspect_project s r ratio).x2 from by linarith [hw2]]
  rw [show ((aspect_project s r ratio).y1 + (aspect_project s r ratio).y2) / 2 - H / 2
        = (aspect_project s r ratio).y1 from by linarith [hh2]]
  rw [show ((aspect_project s r ratio).y1 + (aspect_project s r ratio).y2) / 2 + H / 2
        = (aspect_project s r ratio).y2 from by linarith [hh2]]
  rw [hR1]
  exact clamp_keep_idem s _ _ _ _

/-- C8: the full AspectRatio application step — centre-preserving ratio
projection with degenerate-height substitution, followed by the `keep_size`
clamp — is idempotent: applying `apply_aspect_ratio_to_rect` twice yields the
same state as applying it once, for every positive stored ratio and every
non-inverted stored rectangle. -/
theorem aspect_lock_idempotent (s : Selector)
    (hratio : ∀ q, s.aspect_ratio = some q → 0 < q)
    (hrect : ∀ r, s.rect = some r → r.ordered) :
    apply_aspect_ratio_to_rect (apply_aspect_ratio_to_rect s) = apply_aspect_ratio_to_rect s := by
  rcases hr : s.rect with _ | r
  · have h1 : apply_aspect_ratio_to_rect s = s := by
      simp [apply_aspect_ratio_to_rect, hr]
    rw [h1, h1]
  · rcases ha : s.aspect_ratio with _ | ratio
    · have h1 : apply_aspect_ratio_to_rect s = s := by
        simp [apply_aspect_ratio_to_rect, hr, ha]
      rw [h1, h1]
    · have hr0 : 0 < ratio := hratio ratio ha
      have hord := hrect r hr
      have h1 : apply_aspect_ratio_to_rect s
          = { s with rect := some (aspect_project s r ratio) } := by
        simp only [apply_aspect_ratio_to_rect, hr, ha, if_neg (ne_of_gt hr0)]
      rw [h1]
      have h2 : apply_aspect_ratio_to_rect { s with rect := some (aspect_project s r ratio) }
          = { s with rect := some (aspect_project s (aspect_project s r ratio) ratio) } := by
        simp only [apply_aspect_ratio_to_rect, ha, if_neg (ne_of_gt hr0)]
        congr 1
      rw [h2, aspect_project_idem s r ratio hr0 hord]

theorem aspect_lock_idempotent_witness :
    ((∀ q, ({ S1 with aspect_ratio := some 2 } : Selector).aspect_ratio = some q → 0 < q) ∧
     (∀ r, ({ S1 with aspect_ratio := some 2 } : Selector).rect = some r → r.ordered)) ∧
    apply_aspect_ratio_to_rect (apply_aspect_ratio_to_rect { S1 with aspect_ratio := some 2 })
      = apply_aspect_ratio_to_rect { S1 with aspect_ratio := some 2 } := by
  have ha : ∀ q, ({ S1 with aspect_ratio := some 2 } : Selector).aspect_ratio = some q → 0 < q := by
    intro q hq
    simp only [S1, Option.some.injEq] at hq
    rw [← hq]
    norm_num
  have hb : ∀ r, ({ S1 with aspect_ratio := some 2 } : Selector).rect = some r → r.ordered := by
    intro r hr
    simp only [S1, Option.some.injEq] at hr
    rw [← hr]
    exact ⟨by norm_num, by norm_num⟩
  exact ⟨⟨ha, hb⟩, aspect_lock_idempotent { S1 with aspect_ratio := some 2 } ha hb⟩

/-- C9 (amended): during a Freeform-mode resize drag, each dragged edge
tracks `min(pointer, opposite - min_size)` (respectively
`max(pointer, opposite + min_size)`), and the final `keep_size=False` clamp
then clips that value into the image bounds — so the produced edge equals the
claimed formula only after clipping, and the dragged edge stays at least
`min_size` from the opposite edge whenever the tracked value lies inside the
bounds (the counterexample shows the raw formula is not the produced value
when the pointer leaves the bounds). -/
theorem freeform_resize_tracks_pointer (s : Selector) (r : Rect) (cx cy : ℚ)
    (hfd : s.forced_dimensions = none) (har : s.aspect_ratio = none)
    (hord : r.ordered) (hiw : 0 ≤ s.image_width) (hih : 0 ≤ s.image_height) :
    ((resize_rect { s with resize_edges := some ⟨true, false, false, false⟩ }
        r.x1 r.y1 r.x2 r.y2 cx cy).x1
      = max s.image_x0 (min (min cx (r.x2 - min_size)) (s.image_x0 + s.image_width)) ∧
     (s.image_x0 ≤ min cx (r.x2 - min_size) →
      (resize_rect { s with resize_edges := some ⟨true, false, false, false⟩ }
        r.x1 r.y1 r.x2 r.y2 cx cy).x1 ≤ r.x2 - min_size)) ∧
    ((resize_rect { s with resize_edges := some ⟨false, true, false, false⟩ }
        r.x1 r.y1 r.x2 r.y2 cx cy).x2
      = max s.image_x0 (min (max cx (r.x1 + min_size)) (s.image_x0 + s.image_width)) ∧
     (max cx (r.x1 + min_size) ≤ s.image_x0 + s.image_width →
      r.x1 + min_size ≤ (resize_rect { s with resize_edges := some ⟨false, true, false, false⟩ }
        r.x1 r.y1 r.x2 r.y2 cx cy).x2)) ∧
    ((resize_rect { s with resize_edges := some ⟨false, false, true, false⟩ }
        r.x1 r.y1 r.x2 r.y2 cx cy).y1
      = max s.image_y0 (min (min cy (r.y2 - min_size)) (s.image_y0 + s.image_height)) ∧
     (s.image_y0 ≤ min cy (r.y2 - min_size) →
      (resize_rect { s with resize_edges := some ⟨false, false, true, false⟩ }
        r.x1 r.y1 r.x2 r.y2 cx cy).y1 ≤ r.y2 - min_size)) ∧
    ((resize_rect { s with resize_edges := some ⟨false, false, false, true⟩ }
        r.x1 r.y1 r.x2 r.y2 cx cy).y2
      = max s.image_y0 (min (max cy (r.y1 + min_size)) (s.image_y0 + s.image_height)) ∧
     (max cy (r.y1 + min_size) ≤ s.image_y0 + s.image_height →
      r.y1 + min_size ≤ (resize_rect { s with resize_edges := some ⟨false, false, false, true⟩ }
        r.x1 r.y1 r.x2 r.y2 cx cy).y2)) := by
  have hL : resize_rect { s with resize_edges := some ⟨true, false, false, false⟩ }
      r.x1 r.y1 r.x2 r.y2 cx cy
      = clamp_rect s (min cx (r.x2 - min_size)) r.y1 r.x2 r.y2 false := by
    rw [resize_rect]
    simp [hfd, har]
    rfl
  have hRt : resize_rect { s with resize_edges := some ⟨false, true, false, false⟩ }
      r.x1 r.y1 r.x2 r.y2 cx cy
      = clamp_rect s r.x1 r.y1 (max cx (r.x1 + min_size)) r.y2 false := by
    rw [resize_rect]
    simp [hfd, har]
    rfl
  have hT : resize_rect { s with resize_edges := some ⟨false, false, true, false⟩ }
      r.x1 r.y1 r.x2 r.y2 cx cy
      = clamp_rect s r.x1 (min cy (r.y2 - min_size)) r.x2 r.y2 false := by
    rw [resize_rect]
    simp [hfd, har]
    rfl
  have hB : resize_rect { s with resize_edges := some ⟨false, false, false, true⟩ }
      r.x1 r.y1 r.x2 r.y2 cx cy
      = clamp_rect s r.x1 r.y1 r.x2 (max cy (r.y1 + min_size)) false := by
    rw [resize_rect]
    simp [hfd, har]
    rfl
  refine ⟨⟨?_, ?_⟩, ⟨?_, ?_⟩, ⟨?_, ?_⟩, ⟨?_, ?_⟩⟩
  · rw [hL, clamp_clip_eq]
  · intro hpre
    rw [hL, clamp_clip_eq]
    exact max_le (le_trans hpre (min_le_right _ _))
      (le_trans (min_le_left _ _) (min_le_right _ _))
  · rw [hRt, clamp_clip_eq]
  · intro hpre
    rw [hRt, clamp_clip_eq]
    exact le_trans (le_min (le_max_right _ _) (le_trans (le_max_right _ _) hpre))
      (le_max_right _ _)
  · rw [hT, clamp_clip_eq]
  · intro hpre
    rw [hT, clamp_clip_eq]
    exact max_le (le_trans hpre (min_le_right _ _))
      (le_trans (min_le_left _ _) (min_le_right _ _))
  · rw [hB, clamp_clip_eq]
  · intro hpre
    rw [hB, clamp_clip_eq]
    exact le_trans (le_min (le_max_right _ _) (le_trans (le_max_right _ _) hpre))
      (le_max_right _ _)

theorem freeform_resize_tracks_pointer_witness :
    (S1.forced_dimensions = none ∧ S1.aspect_ratio = none ∧
      (Rect.mk 300 200 500 400).ordered ∧
      (0 : ℚ) ≤ S1.image_width ∧ (0 : ℚ) ≤ S1.image_height) ∧
    (resize_rect { S1 with resize_edges := some ⟨true, false, false, false⟩ }
        300 200 500 400 350 300).x1
      = max S1.image_x0 (min (min 350 (500 - min_size)) (S1.image_x0 + S1.image_width)) := by
  have hord : (Rect.mk 300 200 500 400).ordered := ⟨by norm_num, by norm_num⟩
  exact ⟨⟨rfl, rfl, hord, by norm_num [S1], by norm_num [S1]⟩,
    (freeform_resize_tracks_pointer S1 ⟨300, 200, 500, 400⟩ 350 300 rfl rfl hord
      (by norm_num [S1]) (by norm_num [S1])).1.1⟩

end LabelCrop
